import Mathlib

/-!
Verification of the typedjson value codec (src/typedjson.ts).

The development shallowly embeds the TypeScript source:
the JavaScript value universe is the inductive type `Value`;
plain JSON trees are `JVal`; `JSON.stringify`/`JSON.parse`
(the external grammar primitives) are modelled by the
executable printer `printJVal` and parser `jsonParse`;
`serialize`, `deserialize`, `stringify` and `parse` are
transcribed statement by statement from the source, with the
visit-callback `replacer` and its frame stack made explicit.
Machine doubles are restricted to integers plus the three
non-finite constants, which is the fragment the claims use;
dates are identified with their `toISOString` text.
-/

namespace TypedJson

/-- Numeric values: an integer, or one of the three non-finite constants. -/
inductive JsNum where
  | finite (i : Int)
  | inf
  | ninf
  | nan

/-- The JavaScript value universe handled by the codec (shallow embedding).
A `vdate iso` is a Date whose `toISOString()` is `iso`; a `vregexp src flags`
is a RegExp with `String(r) = "/" ++ src ++ "/" ++ flags`; a `verror` carries
the `name`, `message` and `stack` strings. -/
inductive Value where
  | vnull
  | vundefined
  | vbool (b : Bool)
  | vnum (n : JsNum)
  | vstr (s : String)
  | varr (elems : List Value)
  | vobj (fields : List (String × Value))
  | vdate (iso : String)
  | vset (elems : List Value)
  | vmap (entries : List (String × Value))
  | vregexp (src : String) (flags : String)
  | vbigint (i : Int)
  | verror (name : String) (message : String) (stack : String)

/-- Plain JSON trees, the output language of `JSON.stringify`. -/
inductive JVal where
  | null
  | bool (b : Bool)
  | num (i : Int)
  | str (s : String)
  | arr (elems : List JVal)
  | obj (fields : List (String × JVal))

/-- Lower hex digit for `\u00XX` escapes. -/
def hexDigit (n : Nat) : Char :=
  if n < 10 then Char.ofNat (48 + n) else Char.ofNat (87 + n)

/-- JSON string escaping of one character, as performed by `JSON.stringify`. -/
def escapeChar (c : Char) : List Char :=
  if c = '"' then ['\\', '"']
  else if c = '\\' then ['\\', '\\']
  else if c = '\n' then ['\\', 'n']
  else if c = '\r' then ['\\', 'r']
  else if c = '\t' then ['\\', 't']
  else if c = Char.ofNat 8 then ['\\', 'b']
  else if c = Char.ofNat 12 then ['\\', 'f']
  else if c.toNat < 32 then
    ['\\', 'u', '0', '0', hexDigit (c.toNat / 16), hexDigit (c.toNat % 16)]
  else [c]

def escapeChars : List Char → List Char
  | [] => []
  | c :: cs => escapeChar c ++ escapeChars cs

/-- A JSON string literal: quote, escaped body, quote. -/
def printStr (s : String) : String := ⟨'"' :: (escapeChars s.data ++ ['"'])⟩

def joinComma : List String → String
  | [] => ""
  | [s] => s
  | s :: rest => s ++ ("," ++ joinComma rest)

mutual
/-- Printing a JSON tree to text, as `JSON.stringify` does on its output
(no insignificant whitespace). -/
def printJVal : JVal → String
  | .null => "null"
  | .bool true => "true"
  | .bool false => "false"
  | .num i => toString i
  | .str s => printStr s
  | .arr l => "[" ++ (joinComma (printJList l) ++ "]")
  | .obj fs => "\x7b" ++ (joinComma (printJFields fs) ++ "\x7d")
def printJList : List JVal → List String
  | [] => []
  | v :: vs => printJVal v :: printJList vs
def printJFields : List (String × JVal) → List String
  | [] => []
  | f :: fs => (printStr f.1 ++ (":" ++ printJVal f.2)) :: printJFields fs
end

/-- Value of a hex digit character, if any. -/
def hexVal (c : Char) : Option Nat :=
  if 48 ≤ c.toNat ∧ c.toNat ≤ 57 then some (c.toNat - 48)
  else if 97 ≤ c.toNat ∧ c.toNat ≤ 102 then some (c.toNat - 87)
  else if 65 ≤ c.toNat ∧ c.toNat ≤ 70 then some (c.toNat - 55)
  else none

/-- Single-character escapes accepted after a backslash in a JSON string. -/
def unescapeChar (c : Char) : Option Char :=
  if c = '"' then some '"'
  else if c = '\\' then some '\\'
  else if c = '/' then some '/'
  else if c = 'n' then some '\n'
  else if c = 'r' then some '\r'
  else if c = 't' then some '\t'
  else if c = 'b' then some (Char.ofNat 8)
  else if c = 'f' then some (Char.ofNat 12)
  else none

/-- Parse the body of a JSON string after the opening quote; returns the
decoded characters and the rest of the input after the closing quote. -/
def parseStrChars : List Char → Option (List Char × List Char)
  | [] => none
  | c :: rest =>
    if c = '"' then some ([], rest)
    else if c = '\\' then
      match rest with
      | [] => none
      | e :: rest2 =>
        if e = 'u' then
          match rest2 with
          | h1 :: h2 :: h3 :: h4 :: rest3 =>
            match hexVal h1, hexVal h2, hexVal h3, hexVal h4 with
            | some a, some b, some c2, some d =>
              match parseStrChars rest3 with
              | some (cs, r) =>
                some (Char.ofNat (a * 4096 + b * 256 + c2 * 16 + d) :: cs, r)
              | none => none
            | _, _, _, _ => none
          | _ => none
        else
          match unescapeChar e with
          | some ec =>
            match parseStrChars rest2 with
            | some (cs, r) => some (ec :: cs, r)
            | none => none
          | none => none
    else if c.toNat < 32 then none
    else
      match parseStrChars rest with
      | some (cs, r) => some (c :: cs, r)
      | none => none

/-- Consume decimal digits, accumulating their value. -/
def digitsAux : Nat → List Char → Nat × List Char
  | acc, [] => (acc, [])
  | acc, c :: rest =>
    if c.isDigit then digitsAux (acc * 10 + (c.toNat - 48)) rest
    else (acc, c :: rest)

/-- Insert a field into a JSON object under JavaScript property-assignment
semantics: an existing key keeps its position and gets the new value,
a new key is appended. -/
def objInsert (fs : List (String × JVal)) (k : String) (v : JVal) :
    List (String × JVal) :=
  if fs.any (fun f => f.1 = k) then
    fs.map (fun f => if f.1 = k then (k, v) else f)
  else fs ++ [(k, v)]

def lbrace : Char := Char.ofNat 123

def rbrace : Char := Char.ofNat 125

mutual
/-- Fuel-driven JSON parser over characters (models `JSON.parse` on the
whitespace-free texts this codec produces; integer numerals only). -/
def parseVal : Nat → List Char → Option (JVal × List Char)
  | 0, _ => none
  | _ + 1, [] => none
  | fuel + 1, c :: rest =>
    if c = 'n' then
      match rest with
      | 'u' :: 'l' :: 'l' :: r => some (.null, r)
      | _ => none
    else if c = 't' then
      match rest with
      | 'r' :: 'u' :: 'e' :: r => some (.bool true, r)
      | _ => none
    else if c = 'f' then
      match rest with
      | 'a' :: 'l' :: 's' :: 'e' :: r => some (.bool false, r)
      | _ => none
    else if c = '"' then
      match parseStrChars rest with
      | some (cs, r) => some (.str ⟨cs⟩, r)
      | none => none
    else if c = '-' then
      match rest with
      | d :: r2 =>
        if d.isDigit then
          let p := digitsAux (d.toNat - 48) r2
          some (.num (-(p.1 : Int)), p.2)
        else none
      | [] => none
    else if c.isDigit then
      let p := digitsAux (c.toNat - 48) rest
      some (.num (p.1 : Int), p.2)
    else if c = '[' then
      match rest with
      | ']' :: r => some (.arr [], r)
      | _ =>
        match parseElems fuel rest with
        | some (l, r) => some (.arr l, r)
        | none => none
    else if c = lbrace then
      match rest with
      | d :: r =>
        if d = rbrace then some (.obj [], r)
        else
          match parseFields fuel (d :: r) with
          | some (fs, r2) =>
            some (.obj (fs.foldl (fun acc f => objInsert acc f.1 f.2) []), r2)
          | none => none
      | [] => none
    else none
def parseElems : Nat → List Char → Option (List JVal × List Char)
  | 0, _ => none
  | fuel + 1, cs =>
    match parseVal fuel cs with
    | some (v, r) =>
      match r with
      | ',' :: r2 =>
        match parseElems fuel r2 with
        | some (l, r3) => some (v :: l, r3)
        | none => none
      | ']' :: r2 => some ([v], r2)
      | _ => none
    | none => none
def parseFields : Nat → List Char → Option (List (String × JVal) × List Char)
  | 0, _ => none
  | fuel + 1, cs =>
    match cs with
    | '"' :: r =>
      match parseStrChars r with
      | some (kcs, r2) =>
        match r2 with
        | ':' :: r3 =>
          match parseVal fuel r3 with
          | some (v, r4) =>
            match r4 with
            | ',' :: r5 =>
              match parseFields fuel r5 with
              | some (fs, r6) => some ((⟨kcs⟩, v) :: fs, r6)
              | none => none
            | d :: r5 =>
              if d = rbrace then some ([(⟨kcs⟩, v)], r5) else none
            | [] => none
          | none => none
        | _ => none
      | none => none
    | _ => none
end

/-- Parse a complete JSON text; fails unless the whole input is consumed. -/
def jsonParse (s : String) : Option JVal :=
  match parseVal (s.data.length + 1) s.data with
  | some (v, []) => some v
  | _ => none

mutual
/-- Embed a parsed JSON tree back into the value universe
(what `JSON.parse` returns, before any tag conversions). -/
def jvalToValue : JVal → Value
  | .null => .vnull
  | .bool b => .vbool b
  | .num i => .vnum (.finite i)
  | .str s => .vstr s
  | .arr l => .varr (jvalToValueList l)
  | .obj fs => .vobj (jvalToValueFields fs)
def jvalToValueList : List JVal → List Value
  | [] => []
  | v :: vs => jvalToValue v :: jvalToValueList vs
def jvalToValueFields : List (String × JVal) → List (String × Value)
  | [] => []
  | f :: fs => (f.1, jvalToValue f.2) :: jvalToValueFields fs
end

mutual
/-- Structural size of a value, used only to compute traversal fuel.
String contents do not contribute. -/
def sizeVal : Value → Nat
  | .varr l => 2 + sizeValList l
  | .vobj fs => 2 + sizeValFields fs
  | .vset l => 2 + sizeValList l
  | .vmap fs => 2 + sizeValFields fs
  | .verror _ _ _ => 8
  | _ => 1
def sizeValList : List Value → Nat
  | [] => 0
  | v :: vs => 1 + sizeVal v + sizeValList vs
def sizeValFields : List (String × Value) → Nat
  | [] => 0
  | f :: fs => 1 + sizeVal f.2 + sizeValFields fs
end

/-- Canonical array-index property names: the decimal numeral without
leading zeros (the upper JS bound of 2^32-2 is immaterial at the list
lengths involved and is not modelled). -/
def isCanonicalIndex (s : String) : Option Nat :=
  if s.data ≠ [] ∧ s.data.all Char.isDigit ∧ (s = "0" ∨ s.data.head? ≠ some '0') then
    some (digitsAux 0 s.data).1
  else none

/-- Property read `container[key]` on the plain objects and arrays the
traversal stores in frames; missing properties read as undefined. -/
def jsGet : Value → String → Value
  | .vobj fs, k => ((fs.find? (fun f => f.1 == k)).map (fun f => f.2)).getD .vundefined
  | .varr l, k =>
    if k = "length" then .vnum (.finite l.length)
    else
      match isCanonicalIndex k with
      | some i => l.getD i .vundefined
      | none => .vundefined
  | _, _ => .vundefined

/-- JavaScript property assignment on an object literal: an existing key
keeps its position, a new key is appended. -/
def vobjInsert (fs : List (String × Value)) (k : String) (v : Value) :
    List (String × Value) :=
  if fs.any (fun f => f.1 == k) then
    fs.map (fun f => if f.1 == k then (k, v) else f)
  else fs ++ [(k, v)]

/-- `Object.fromEntries`: later duplicate keys overwrite at the first
occurrence's position. -/
def fromEntries (es : List (String × Value)) : List (String × Value) :=
  es.foldl (fun acc e => vobjInsert acc e.1 e.2) []

/-- The `typeof` operator (note `typeof null` is `'object'`). -/
inductive JsType where
  | tyObject
  | tyUndefined
  | tyBoolean
  | tyNumber
  | tyString
  | tyBigint
  deriving DecidableEq

def typeOf : Value → JsType
  | .vnull | .varr _ | .vobj _ | .vdate _ | .vset _ | .vmap _
  | .vregexp _ _ | .verror _ _ _ => .tyObject
  | .vundefined => .tyUndefined
  | .vbool _ => .tyBoolean
  | .vnum _ => .tyNumber
  | .vstr _ => .tyString
  | .vbigint _ => .tyBigint

/-- Frame types actually stored in `EntryType.type`: `'object'` for plain
objects and lowered errors, `'set'`, `'map'`, and the initializer
`'undefined'` which arrays keep (the source never assigns `t` for them). -/
inductive EType where
  | obj
  | eset
  | emap
  | eundefined
  deriving DecidableEq

/-- The source's local `t : NonJsonTypes | 'object'` after classification. -/
inductive TVal where
  | tundefined
  | tdate
  | tset
  | tmap
  | tregexp
  | terror
  | tobj
  deriving DecidableEq

def tvalTag : TVal → String
  | .tdate => "date"
  | .tset => "set"
  | .tmap => "map"
  | .tregexp => "regexp"
  | .terror => "error"
  | _ => ""

def tvalEType : TVal → EType
  | .tobj => .obj
  | .tset => .eset
  | .tmap => .emap
  | _ => .eundefined

/-- One traversal frame (`EntryType`, source lines 12-17): the substituted
container, its declared child count, and the running visit count. -/
structure Frame where
  type : EType
  value : Value
  count : Nat
  iteration : Nat

/-- The encoder's mutable state: the frame stack, the parallel path-prefix
stack (initially `[""]`), and the tag map in insertion order. The heads of
the lists are the stack tops. -/
structure SState where
  stack : List Frame
  keys : List String
  meta : List (String × String)

/-- `meta.set` on the ES Map: update in place or append. -/
def metaSet (m : List (String × String)) (k t : String) : List (String × String) :=
  if m.any (fun e => e.1 == k) then
    m.map (fun e => if e.1 == k then (k, t) else e)
  else m ++ [(k, t)]

/-- Lines 86-109 of the source (the tail of the replacer, reached when the
object branch was not taken or fell through with count 0): `valueType` is
the `typeof` captured at line 46, `value` the possibly substituted value. -/
def replacerTail (valueType : JsType) (value : Value) (metaKey : String)
    (st : SState) : Value × SState :=
  if valueType = JsType.tyBigint then
    match value with
    | .vbigint i =>
      (.vstr (toString i), { st with meta := metaSet st.meta metaKey ("bigint") })
    | _ => (value, st)
  else if valueType = JsType.tyNumber then
    match value with
    | .vnum .inf =>
      (.vstr ("Infinity"), { st with meta := metaSet st.meta metaKey ("infinity") })
    | .vnum .ninf =>
      (.vstr ("-Infinity"), { st with meta := metaSet st.meta metaKey ("-infinity") })
    | .vnum .nan =>
      (.vstr ("NaN"), { st with meta := metaSet st.meta metaKey ("nan") })
    | _ =>
      if typeOf value = JsType.tyUndefined then
        (.vnull, { st with meta := metaSet st.meta metaKey ("undefined") })
      else (value, st)
  else
    if typeOf value = JsType.tyUndefined then
      (.vnull, { st with meta := metaSet st.meta metaKey ("undefined") })
    else (value, st)

/-- Lines 29-41 of the source: charge the visit to the top frame; if that
frame is exhausted, pop it (popping the path prefix too when it was a
mapping frame) and charge the new top — with no further exhaustion check.
When the popped frame was the only one, the source reads
`stack[stack.length - 1]` of the now-empty stack and increments a field of
the resulting `undefined`, a TypeError modelled by `Except.error ()`. -/
def resolveFrame (st : SState) :
    Except Unit (Option Frame × List Frame × List String) :=
  match st.stack with
  | [] => Except.ok (none, st.stack, st.keys)
  | e :: rest =>
    let e1 := { e with iteration := e.iteration + 1 }
    if e1.count < e1.iteration then
      let keys1 := if e1.type = EType.obj then st.keys.tail else st.keys
      match rest with
      | [] => Except.error ()
      | e2 :: rest2 =>
        let e3 := { e2 with iteration := e2.iteration + 1 }
        Except.ok (some e3, e3 :: rest2, keys1)
    else Except.ok (some e1, e1 :: rest, st.keys)

/-- One call of the visit callback `replacer(key, value)` (source lines
28-109). -/
def replacer (key : String) (value : Value) (st : SState) :
    Except Unit (Value × SState) :=
  match resolveFrame st with
  | .error e => .error e
  | .ok (entry, stack, keys) =>
    -- lines 42-44: re-resolve the child from the owning frame's container
    let value := match entry with
      | some fr => jsGet fr.value key
      | none => value
    -- line 45 (reading past an underflowed keys stack renders "undefined")
    let metaKey := (keys.headD ("undefined")) ++ key
    -- line 46
    let valueType := typeOf value
    -- lines 47-74: classification of object-like values
    let cls : Option (Value × Nat × TVal × List Frame) :=
      match value with
      | .vdate iso => some (.vstr iso, 0, .tdate, stack)
      | .vset l => some (.varr l, l.length, .tset, stack)
      | .vmap es =>
        let o := fromEntries es
        some (.vobj o, o.length, .tmap, stack)
      | .varr l => some (.varr l, l.length, .tundefined, stack)
      | .vregexp src flags =>
        some (.vstr ("/" ++ (src ++ ("/" ++ flags))), 0, .tregexp, stack)
      | .verror n m s2 =>
        let eobj := Value.vobj
          [("name", .vstr n), ("message", .vstr m), ("stack", .vstr s2)]
        some (eobj, 0, .terror,
          { type := EType.obj, value := eobj, count := 3, iteration := 0 } :: stack)
      | .vobj fs => some (.vobj fs, fs.length, .tobj, stack)
      | _ => none
    match cls with
    | some (value2, count, t, stack2) =>
      -- lines 75-77
      let meta :=
        if t ≠ TVal.tundefined ∧ t ≠ TVal.tobj then metaSet st.meta metaKey (tvalTag t)
        else st.meta
      -- lines 78-84
      if count ≠ 0 then
        let stack3 :=
          { type := tvalEType t, value := value2, count := count, iteration := 0 } :: stack2
        let keys2 :=
          if key ≠ "" ∧ t = TVal.tobj then (metaKey ++ (".")) :: keys else keys
        .ok (value2, { stack := stack3, keys := keys2, meta := meta })
      else
        .ok (replacerTail valueType value2 metaKey
          { stack := stack2, keys := keys, meta := meta })
    | none =>
      .ok (replacerTail valueType value metaKey
        { stack := stack, keys := keys, meta := st.meta })

/-- Object-member serialization loop of `JSON.stringify`: each member's
value goes through `rec` (the per-property serialization); members that
come back as undefined are omitted. -/
def serFields
    (rec : String → Value → SState → Except Unit (Option JVal × SState)) :
    List (String × Value) → SState → Except Unit (List (String × JVal) × SState)
  | [], st => .ok ([], st)
  | f :: rest, st =>
    match rec f.1 f.2 st with
    | .error e => .error e
    | .ok (mj, st1) =>
      match serFields rec rest st1 with
      | .error e => .error e
      | .ok (tail, st2) =>
        match mj with
        | none => .ok (tail, st2)
        | some jv => .ok ((f.1, jv) :: tail, st2)

/-- Array-element serialization loop of `JSON.stringify`: element keys are
the decimal indices, and undefined results print as null. -/
def serElems
    (rec : String → Value → SState → Except Unit (Option JVal × SState)) :
    Nat → List Value → SState → Except Unit (List JVal × SState)
  | _, [], st => .ok ([], st)
  | i, v :: rest, st =>
    match rec (toString i) v st with
    | .error e => .error e
    | .ok (mj, st1) =>
      match serElems rec (i + 1) rest st1 with
      | .error e => .error e
      | .ok (tail, st2) => .ok ((mj.getD JVal.null) :: tail, st2)

/-- Collect an element-serialization result into a JSON array. -/
def arrOut (r : Except Unit (List JVal × SState)) :
    Except Unit (Option JVal × SState) :=
  match r with
  | .error e => .error e
  | .ok (elems, st2) => .ok (some (.arr elems), st2)

/-- Collect a member-serialization result into a JSON object. -/
def objOut (r : Except Unit (List (String × JVal) × SState)) :
    Except Unit (Option JVal × SState) :=
  match r with
  | .error e => .error e
  | .ok (mems, st2) => .ok (some (.obj mems), st2)

/-- `toJSON` is applied to the value read from the holder before the
replacer sees it; only dates have one. -/
def toJSONify : Value → Value
  | .vdate iso => .vstr iso
  | v => v

/-- Serialize what the replacer returned, recursing (via `rec`) into
containers. A `none` result models an undefined output. `JSON.stringify`
would throw on a bigint result, and treats the remaining object kinds as
memberless; the replacer never returns either. -/
def dispatchOut
    (rec : String → Value → SState → Except Unit (Option JVal × SState))
    (r : Except Unit (Value × SState)) : Except Unit (Option JVal × SState) :=
  match r with
  | .error e => .error e
  | .ok (v, st1) =>
    match v with
    | .vundefined => .ok (none, st1)
    | .vnull => .ok (some .null, st1)
    | .vbool b => .ok (some (.bool b), st1)
    | .vnum (.finite i) => .ok (some (.num i), st1)
    | .vnum _ => .ok (some .null, st1)
    | .vstr s => .ok (some (.str s), st1)
    | .vbigint _ => .error ()
    | .varr l => arrOut (serElems rec 0 l st1)
    | .vobj fs => objOut (serFields rec fs st1)
    | _ => .ok (some (.obj []), st1)

/-- One `SerializeJSONProperty` step of `JSON.stringify(data, replacer)`:
apply `toJSON` to the read value (only dates have one), call the
replacer, and serialize its result. -/
def serStep
    (rec : String → Value → SState → Except Unit (Option JVal × SState))
    (key : String) (passed : Value) (st : SState) :
    Except Unit (Option JVal × SState) :=
  dispatchOut rec (replacer key (toJSONify passed) st)

/-- The fuel-indexed driver; the fuel only bounds the traversal depth the
stale-frame re-resolution can produce and is chosen generously. -/
def sjp : Nat → String → Value → SState → Except Unit (Option JVal × SState)
  | 0 => fun _ _ _ => .error ()
  | fuel + 1 => serStep (sjp fuel)

/-- The encoder's initial state: empty frame stack, prefix stack `[""]`,
empty tag map. -/
def rootState : SState := { stack := [], keys := [""], meta := [] }

/-- The state after the root call pushed a single frame. -/
def pushState (t : EType) (v : Value) (n : Nat)
    (meta : List (String × String)) : SState :=
  { stack := [{ type := t, value := v, count := n, iteration := 0 }],
    keys := [""], meta := meta }

/-- A root state carrying only a tag map. -/
def metaState (meta : List (String × String)) : SState :=
  { stack := [], keys := [""], meta := meta }

/-- Project the final traversal state onto the returned tag map. -/
def withMeta (r : Except Unit (Option JVal × SState)) :
    Except Unit (Option JVal × List (String × String)) :=
  match r with
  | .error e => .error e
  | .ok (mj, st) => .ok (mj, st.meta)

/-- Transcription of `serialize` (source lines 18-116): the early null and
undefined returns, then `JSON.stringify(data, replacer)` from the holder
key `""`. The result pairs the JSON tree (none = undefined) with the tag
map in insertion order ([] models the absent meta of line 114). An
`Except.error` is a thrown TypeError. -/
def serialize (data : Value) :
    Except Unit (Option JVal × List (String × String)) :=
  match data with
  | .vnull => .ok (some JVal.null, [])
  | .vundefined => .ok (none, [])
  | _ =>
    withMeta (sjp (sizeVal data * sizeVal data + 8) ("") data
      { stack := [], keys := [""], meta := [] })

/-- `serialize` with the JSON tree printed to text, which is what the
source returns. -/
def serializeText (data : Value) :
    Except Unit (Option String × List (String × String)) :=
  match serialize data with
  | .error e => .error e
  | .ok (mj, meta) => .ok (mj.map printJVal, meta)

/-- Stable insertion used to put integer-like property keys first in
ascending order, as `Object.keys` enumerates them. -/
def insSorted (x : Nat × (String × String)) :
    List (Nat × (String × String)) → List (Nat × (String × String))
  | [] => [x]
  | y :: ys => if y.1 ≤ x.1 then y :: insSorted x ys else x :: y :: ys

/-- JavaScript own-property enumeration order for the tag map: canonical
integer keys first in ascending numeric order, then the remaining keys in
insertion order. -/
def jsKeyOrder (m : List (String × String)) : List (String × String) :=
  let idx := m.filterMap (fun e => (isCanonicalIndex e.1).map (fun i => (i, e)))
  (idx.foldl (fun acc x => insSorted x acc) []).map (fun x => x.2) ++
    m.filter (fun e => (isCanonicalIndex e.1).isNone)

/-- `JSON.stringify(meta)` after `Object.fromEntries`: the tag map printed
as a JSON object in property order. -/
def metaJson (m : List (String × String)) : String :=
  printJVal (.obj ((jsKeyOrder m).map (fun e => (e.1, JVal.str e.2))))

def headChar (s : String) : Option Char := s.data.head?

/-- `s.substring(0, s.length - n)`. -/
def dropLastChars (s : String) (n : Nat) : String :=
  ⟨s.data.take (s.data.length - n)⟩

/-- The mapping splice of source line 194: drop the last TWO characters
(`json.substring(0, json.length - 2)`, as written) and append the
`__meta__` member and a closing brace. -/
def spliceMeta (json : String) (meta : List (String × String)) : String :=
  dropLastChars json 2 ++ (",\"__meta__\":" ++ (metaJson meta ++ "\x7d"))

/-- The sequence wrapper of source line 198, with its stray quote after
`__json__`, exactly as written. -/
def wrapArray (json : String) (meta : List (String × String)) : String :=
  "\x7b\"__json__\"\":" ++ (json ++ (",\"__meta__\":" ++ (metaJson meta ++ "\x7d")))

/-- The payload framing of `stringify` (source lines 192-200): splice into
mappings, wrap sequences, return everything else unchanged; no framing
when the text is falsy or the tag map is absent. -/
def frameText (json : String) (meta : List (String × String)) : String :=
  if json ≠ "" ∧ meta ≠ [] then
    if headChar json = some lbrace then spliceMeta json meta
    else if headChar json = some '[' then wrapArray json meta
    else json
  else json

/-- Transcription of `stringify` (source lines 190-202). -/
def stringify (data : Value) : Except Unit (Option String) :=
  match serializeText data with
  | .error e => .error e
  | .ok (mj, meta) => .ok (mj.map (fun json => frameText json meta))

/-- Decode-side failures: TypeError (property access/write on nullish or
frozen primitives), SyntaxError (`JSON.parse`, `BigInt`), and the explicit
`Invalid regexp` Error of source line 161. -/
inductive DErr where
  | typeError
  | syntaxError
  | invalidRegexp (text : String)
  deriving DecidableEq

/-- Property read `o[k]` during path walking: throws on null/undefined,
indexes arrays and strings, reads the fields of lowered errors, and gives
undefined elsewhere. -/
def jsGetThrow : Value → String → Except DErr Value
  | .vnull, _ => .error .typeError
  | .vundefined, _ => .error .typeError
  | .vobj fs, k =>
    .ok (((fs.find? (fun f => f.1 == k)).map (fun f => f.2)).getD .vundefined)
  | .varr l, k =>
    if k = "length" then .ok (.vnum (.finite l.length))
    else
      .ok (match isCanonicalIndex k with
        | some i => l.getD i .vundefined
        | none => .vundefined)
  | .vstr s, k =>
    if k = "length" then .ok (.vnum (.finite s.length))
    else
      .ok (match isCanonicalIndex k with
        | some i =>
          match s.data.get? i with
          | some c => .vstr ⟨[c]⟩
          | none => .vundefined
        | none => .vundefined)
  | .verror n m s, k =>
    if k = "name" then .ok (.vstr n)
    else if k = "message" then .ok (.vstr m)
    else if k = "stack" then .ok (.vstr s)
    else .ok .vundefined
  | _, _ => .ok .vundefined

/-- Array index assignment; absent intermediate slots become undefined. -/
def arrSet (l : List Value) (i : Nat) (v : Value) : List Value :=
  if i < l.length then l.set i v
  else (l ++ List.replicate (i - l.length) Value.vundefined) ++ [v]

/-- Property write `o[k] = v` in strict mode (the source is an ES module):
throws on null, undefined and primitives; updates plain objects and array
indices. A write to the remaining object kinds only creates an expando
property invisible to everything the codec later does, modelled as a
no-op. -/
def jsSetThrow : Value → String → Value → Except DErr Value
  | .vobj fs, k, v => .ok (.vobj (vobjInsert fs k v))
  | .varr l, k, v =>
    .ok (match isCanonicalIndex k with
      | some i => .varr (arrSet l i v)
      | none => .varr l)
  | .vdate i, _, _ => .ok (.vdate i)
  | .vset l, _, _ => .ok (.vset l)
  | .vmap es, _, _ => .ok (.vmap es)
  | .vregexp a b, _, _ => .ok (.vregexp a b)
  | .verror a b c, _, _ => .ok (.verror a b c)
  | _, _, _ => .error .typeError

/-- String coercion `String(v)` for the cases the decoder can reach
(containers would join their elements; the codec never coerces one). -/
def jsToString : Value → String
  | .vstr s => s
  | .vundefined => "undefined"
  | .vnull => "null"
  | .vbool true => "true"
  | .vbool false => "false"
  | .vnum (.finite i) => toString i
  | .vnum .inf => "Infinity"
  | .vnum .ninf => "-Infinity"
  | .vnum .nan => "NaN"
  | .vbigint i => toString i
  | .vdate iso => iso
  | .vregexp s f => "/" ++ (s ++ ("/" ++ f))
  | _ => ""

/-- `new Date(value)`: reconstructing from the `toISOString` text the
encoder stored yields that date back; other arguments (never produced by
the encoder) are collapsed to an invalid date. -/
def jsNewDate : Value → Value
  | .vstr s => .vdate s
  | _ => .vdate ("Invalid Date")

def isPrimitive : Value → Bool
  | .vnull | .vundefined | .vbool _ | .vnum _ | .vstr _ | .vbigint _ => true
  | _ => false

/-- SameValueZero on the primitives modelled here (structural; NaN equals
NaN, and the single modelled zero subsumes both signed zeros). -/
def primEq : Value → Value → Bool
  | .vnull, .vnull => true
  | .vundefined, .vundefined => true
  | .vbool a, .vbool b => a == b
  | .vstr a, .vstr b => a == b
  | .vbigint a, .vbigint b => a == b
  | .vnum (.finite a), .vnum (.finite b) => a == b
  | .vnum .inf, .vnum .inf => true
  | .vnum .ninf, .vnum .ninf => true
  | .vnum .nan, .vnum .nan => true
  | _, _ => false

def setDedupAux (seen : List Value) : List Value → List Value
  | [] => []
  | v :: vs =>
    if isPrimitive v && seen.any (fun w => primEq w v) then setDedupAux seen vs
    else v :: setDedupAux (v :: seen) vs

/-- `new Set(value)`: iterables collect their elements with SameValueZero
deduplication — on primitives that is the structural `primEq`, and
distinct composite elements are distinct heap objects that never merge;
null/undefined give an empty set; anything else is not iterable and
throws. -/
def jsNewSet : Value → Except DErr Value
  | .varr l => .ok (.vset (setDedupAux [] l))
  | .vstr s => .ok (.vset (setDedupAux [] (s.data.map (fun c => Value.vstr ⟨[c]⟩))))
  | .vnull => .ok (.vset [])
  | .vundefined => .ok (.vset [])
  | .vset l => .ok (.vset l)
  | .vmap es => .ok (.vset (es.map (fun e => Value.varr [Value.vstr e.1, e.2])))
  | _ => .error .typeError

/-- `Object.entries(value)`: throws on null/undefined, lists object
fields, indexes arrays and strings, and is empty on primitives and
exotic objects. -/
def jsObjectEntries : Value → Except DErr (List (String × Value))
  | .vnull => .error .typeError
  | .vundefined => .error .typeError
  | .vobj fs => .ok fs
  | .varr l => .ok (l.enum.map (fun p => (toString p.1, p.2)))
  | .vstr s => .ok (s.data.enum.map (fun p => (toString p.1, Value.vstr ⟨[p.2]⟩)))
  | _ => .ok []

/-- `new Map(entries)`: later duplicate keys overwrite in place. -/
def jsNewMap (es : List (String × Value)) : Value :=
  .vmap (es.foldl (fun acc e => vobjInsert acc e.1 e.2) [])

/-- `BigInt(value)`: decimal strings (possibly signed; empty or blank
means 0), whole numbers and booleans convert; other strings raise a
SyntaxError, other values a TypeError. Non-decimal numeric syntax is
never produced by the encoder and is not modelled. -/
def parseDecInt (s : String) : Option Int :=
  match s.data with
  | [] => some 0
  | '-' :: ds =>
    if ds ≠ [] ∧ ds.all Char.isDigit then some (-((digitsAux 0 ds).1 : Int)) else none
  | '+' :: ds =>
    if ds ≠ [] ∧ ds.all Char.isDigit then some (((digitsAux 0 ds).1 : Int)) else none
  | ds => if ds.all Char.isDigit then some (((digitsAux 0 ds).1 : Int)) else none

def jsBigInt : Value → Except DErr Int
  | .vstr s =>
    match parseDecInt s with
    | some i => .ok i
    | none => .error .syntaxError
  | .vnum (.finite i) => .ok i
  | .vbool b => .ok (if b then 1 else 0)
  | .vbigint i => .ok i
  | _ => .error .typeError

def isFlagChar (c : Char) : Bool :=
  c == 'd' || c == 'g' || c == 'i' || c == 'm' || c == 's' || c == 'u' || c == 'y'

/-- Characters the regexp dot matches (everything but line terminators). -/
def isDotChar (c : Char) : Bool :=
  !(c == '\n' || c == '\r' || c.toNat == 8232 || c.toNat == 8233)

/-- Split `body/flags` at the LAST slash (the greedy `.*`). -/
def splitLastSlash : List Char → Option (List Char × List Char)
  | [] => none
  | c :: cs =>
    match splitLastSlash cs with
    | some (b, f) => some (c :: b, f)
    | none => if c = '/' then some ([], cs) else none

/-- The test `/^\/(.*)\/([dgimsuy]*)$/.exec(text)` of source line 157: the
text must open with a slash and split at its last slash into a
newline-free body and flag letters. Returns the captured (body, flags). -/
def regexpMatchLower (s : String) : Option (String × String) :=
  match s.data with
  | '/' :: rest =>
    match splitLastSlash rest with
    | some (b, f) =>
      if b.all isDotChar && f.all isFlagChar then some (⟨b⟩, ⟨f⟩) else none
    | none => none
  | _ => none

/-- The field reads `value.name` / `value.stack` feed plain assignments;
`new Error(value.message)` turns an undefined message into `""`. The
encoder only ever supplies strings here; other values are coerced. -/
def errField : Value → String
  | .vstr s => s
  | v => jsToString v

def errMessage : Value → String
  | .vstr s => s
  | .vundefined => ""
  | v => jsToString v

/-- Transcription of `applyConversion` (source lines 134-186): walk the
path, read the slot, convert per tag, and assign back. The source mutates
the parsed tree in place; the mutation is rendered as functional
write-back along the walked path, which is equivalent because the tree is
freshly parsed and unaliased. Unrecognized tag strings fall through the
switch and change nothing (the property reads still happen first). -/
def applyConversion (result : Value) (keys : List String) (ty : String) :
    Except DErr Value :=
  match keys with
  | [] => .ok result
  | key :: rest =>
    if rest ≠ [] then
      match jsGetThrow result key with
      | .error e => .error e
      | .ok child =>
        match applyConversion child rest ty with
        | .error e => .error e
        | .ok child2 => jsSetThrow result key child2
    else
      match jsGetThrow result key with
      | .error e => .error e
      | .ok value =>
        if ty = "date" then jsSetThrow result key (jsNewDate value)
        else if ty = "set" then
          match jsNewSet value with
          | .error e => .error e
          | .ok sv => jsSetThrow result key sv
        else if ty = "map" then
          match jsObjectEntries value with
          | .error e => .error e
          | .ok es => jsSetThrow result key (jsNewMap es)
        else if ty = "regexp" then
          match regexpMatchLower (jsToString value) with
          | some bf => jsSetThrow result key (.vregexp bf.1 bf.2)
          | none => .error (.invalidRegexp (jsToString value))
        else if ty = "bigint" then
          match jsBigInt value with
          | .error e => .error e
          | .ok i => jsSetThrow result key (.vbigint i)
        else if ty = "undefined" then jsSetThrow result key .vundefined
        else if ty = "infinity" then jsSetThrow result key (.vnum .inf)
        else if ty = "-infinity" then jsSetThrow result key (.vnum .ninf)
        else if ty = "nan" then jsSetThrow result key (.vnum .nan)
        else if ty = "error" then
          match jsGetThrow value ("message") with
          | .error e => .error e
          | .ok m =>
            match jsGetThrow value ("name") with
            | .error e => .error e
            | .ok n =>
              match jsGetThrow value ("stack") with
              | .error e => .error e
              | .ok s2 =>
                jsSetThrow result key (.verror (errField n) (errMessage m) (errField s2))
        else .ok result

/-- `key.split('.')`: always a nonempty segment list. -/
def splitDotChars : List Char → List (List Char)
  | [] => [[]]
  | c :: rest =>
    if c = '.' then [] :: splitDotChars rest
    else
      match splitDotChars rest with
      | s :: ss => (c :: s) :: ss
      | [] => [[c]]

def splitDot (s : String) : List String :=
  (splitDotChars s.data).map (fun cs => ⟨cs⟩)

/-- The phase of `deserialize` after `JSON.parse`: apply every tag map
entry (integer-like keys enumerated first, as `Object.keys` does) to the
parsed tree. -/
def deserializeTree (jv : JVal) (meta : List (String × String)) :
    Except DErr Value :=
  (jsKeyOrder meta).foldlM
    (fun res e => applyConversion res (splitDot e.1) e.2) (jvalToValue jv)

/-- Transcription of `deserialize` (source lines 118-188). `json` is the
optional text (`!json` catches null/undefined and the empty string, all
returning null); `meta` is the tag map, [] modelling an absent one. -/
def deserialize (json : Option String) (meta : List (String × String)) :
    Except DErr Value :=
  match json with
  | none => .ok .vnull
  | some txt =>
    if txt = "" then .ok .vnull
    else
      match jsonParse txt with
      | none => .error .syntaxError
      | some jv => deserializeTree jv meta

def objLookup (fs : List (String × JVal)) (k : String) : Option JVal :=
  (fs.find? (fun f => f.1 == k)).map (fun f => f.2)

/-- JavaScript truthiness of a property read (absent reads undefined). -/
def jvTruthy : Option JVal → Bool
  | none => false
  | some .null => false
  | some (.bool b) => b
  | some (.num i) => i != 0
  | some (.str s) => s != ""
  | some (.arr _) => true
  | some (.obj _) => true

/-- The runtime content of `data.__meta__` as a tag map; the type
annotation `Record<string, NonJsonTypes>` is erased, so arbitrary tag
strings flow through (unrecognized ones are no-ops in the switch). -/
def metaOfJVal : Option JVal → List (String × String)
  | some (.obj fs) =>
    fs.filterMap (fun f =>
      match f.2 with
      | .str t => some (f.1, t)
      | _ => none)
  | _ => []

/-- Transcription of `parse` (source lines 204-217). Reading `__json__`
of a null payload throws a TypeError; the `__meta__` branch deletes the
key from the parsed copy but hands the ORIGINAL text to `deserialize`
(transcribed as-is, so the reparsed result keeps its `__meta__` member). -/
def parse (json : String) : Except DErr Value :=
  match jsonParse json with
  | none => .error .syntaxError
  | some data =>
    match data with
    | .null => .error .typeError
    | .obj fs =>
      if jvTruthy (objLookup fs ("__json__")) then
        match objLookup fs ("__json__") with
        | some (.str t) =>
          deserialize (some t) (metaOfJVal (objLookup fs ("__meta__")))
        | _ => .error .syntaxError
      else if jvTruthy (objLookup fs ("__meta__")) then
        deserialize (some json) (metaOfJVal (objLookup fs ("__meta__")))
      else .ok (jvalToValue data)
    | _ => .ok (jvalToValue data)

mutual
/-- `JSON.stringify(v)` WITHOUT a replacer, as a tree: the direct print of
the representable grammar. Dates print through `toJSON`; undefined gives
no output (omitted members, null elements); non-finite numbers print as
null; the exotic object kinds have no enumerable members. A bigint would
throw; the plain fragment this is compared on never contains one. -/
def plainJson : Value → Option JVal
  | .vnull => some .null
  | .vundefined => none
  | .vbool b => some (.bool b)
  | .vnum (.finite i) => some (.num i)
  | .vnum _ => some .null
  | .vstr s => some (.str s)
  | .vdate iso => some (.str iso)
  | .varr l => some (.arr (plainJsonList l))
  | .vobj fs => some (.obj (plainJsonFields fs))
  | .vbigint _ => none
  | .vset _ => some (.obj [])
  | .vmap _ => some (.obj [])
  | .vregexp _ _ => some (.obj [])
  | .verror _ _ _ => some (.obj [])
def plainJsonList : List Value → List JVal
  | [] => []
  | v :: vs => ((plainJson v).getD JVal.null) :: plainJsonList vs
def plainJsonFields : List (String × Value) → List (String × JVal)
  | [] => []
  | f :: fs =>
    match plainJson f.2 with
    | none => plainJsonFields fs
    | some jv => (f.1, jv) :: plainJsonFields fs
end

/-! ### General lemmas -/

theorem hexVal_hexDigit (m : Nat) (h : m < 16) : hexVal (hexDigit m) = some m := by
  interval_cases m <;> rfl

theorem parseStrChars_escapeChars (cs : List Char) (r : List Char) :
    parseStrChars (escapeChars cs ++ ('"' :: r)) = some (cs, r) := by
  induction cs with
  | nil => rw [parseStrChars.eq_def]; rfl
  | cons c cs ih =>
    have hstep : escapeChars (c :: cs) = escapeChar c ++ escapeChars cs := rfl
    rw [hstep, List.append_assoc]
    unfold escapeChar
    by_cases h1 : c = '"'
    · subst h1
      rw [if_pos rfl]
      show parseStrChars ('\\' :: '"' :: (escapeChars cs ++ '"' :: r)) = _
      rw [parseStrChars.eq_def]
      simp [unescapeChar, ih]
    rw [if_neg h1]
    by_cases h2 : c = '\\'
    · subst h2
      rw [if_pos rfl]
      show parseStrChars ('\\' :: '\\' :: (escapeChars cs ++ '"' :: r)) = _
      rw [parseStrChars.eq_def]
      simp [unescapeChar, ih]
    rw [if_neg h2]
    by_cases h3 : c = '\n'
    · subst h3
      rw [if_pos rfl]
      show parseStrChars ('\\' :: 'n' :: (escapeChars cs ++ '"' :: r)) = _
      rw [parseStrChars.eq_def]
      simp [unescapeChar, ih]
    rw [if_neg h3]
    by_cases h4 : c = '\r'
    · subst h4
      rw [if_pos rfl]
      show parseStrChars ('\\' :: 'r' :: (escapeChars cs ++ '"' :: r)) = _
      rw [parseStrChars.eq_def]
      simp [unescapeChar, ih]
    rw [if_neg h4]
    by_cases h5 : c = '\t'
    · subst h5
      rw [if_pos rfl]
      show parseStrChars ('\\' :: 't' :: (escapeChars cs ++ '"' :: r)) = _
      rw [parseStrChars.eq_def]
      simp [unescapeChar, ih]
    rw [if_neg h5]
    by_cases h6 : c = Char.ofNat 8
    · subst h6
      rw [if_pos rfl]
      show parseStrChars ('\\' :: 'b' :: (escapeChars cs ++ '"' :: r)) = _
      rw [parseStrChars.eq_def]
      simp [unescapeChar, ih]
    rw [if_neg h6]
    by_cases h7 : c = Char.ofNat 12
    · subst h7
      rw [if_pos rfl]
      show parseStrChars ('\\' :: 'f' :: (escapeChars cs ++ '"' :: r)) = _
      rw [parseStrChars.eq_def]
      simp [unescapeChar, ih]
    rw [if_neg h7]
    by_cases h8 : c.toNat < 32
    · rw [if_pos h8]
      have hd : c.toNat / 16 < 16 := by omega
      have hm : c.toNat % 16 < 16 := Nat.mod_lt _ (by norm_num)
      show parseStrChars ('\\' :: 'u' :: '0' :: '0' :: hexDigit (c.toNat / 16) ::
        hexDigit (c.toNat % 16) :: (escapeChars cs ++ '"' :: r)) = _
      rw [parseStrChars.eq_def]
      have h9 : ¬(('\\' : Char) = '"') := by decide
      simp only [if_neg h9, reduceIte, show hexVal '0' = some 0 from rfl,
        hexVal_hexDigit _ hd, hexVal_hexDigit _ hm, ih]
      have harith : 0 * 4096 + 0 * 256 + c.toNat / 16 * 16 + c.toNat % 16 = c.toNat := by
        omega
      rw [harith, Char.ofNat_toNat]
    · rw [if_neg h8]
      show parseStrChars (c :: (escapeChars cs ++ '"' :: r)) = _
      rw [parseStrChars.eq_def]
      simp [h1, h2, h8, ih]

theorem jsonParse_printStr (t : String) :
    jsonParse (printJVal (.str t)) = some (.str t) := by
  show jsonParse (printStr t) = _
  have hdata : (printStr t).data = '"' :: (escapeChars t.data ++ ('"' :: [])) := rfl
  unfold jsonParse
  rw [hdata]
  simp only [List.length_cons, parseVal]
  rw [parseStrChars_escapeChars]
  all_goals rfl

theorem printStr_ne_empty (t : String) : printStr t ≠ "" := by
  intro h
  have h2 : (printStr t).data = [] := by rw [h]
  rw [show (printStr t).data = '"' :: (escapeChars t.data ++ ('"' :: [])) from rfl] at h2
  exact List.cons_ne_nil _ _ h2

theorem sjp_step (n : Nat) : sjp (n + 8) = serStep (sjp (n + 7)) := sjp.eq_2 (n + 7)

theorem parse_printStr (t : String) : parse (printJVal (.str t)) = .ok (.vstr t) := by
  unfold parse
  rw [jsonParse_printStr]
  all_goals rfl

theorem splitDotChars_no_dot (cs : List Char) (h : '.' ∉ cs) :
    splitDotChars cs = [cs] := by
  induction cs with
  | nil => rfl
  | cons c cs ih =>
    have hc : ¬(c = '.') := fun e => h (by simp [e])
    have hcs : '.' ∉ cs := fun hm => h (List.mem_cons_of_mem _ hm)
    rw [splitDotChars.eq_def]
    simp only [if_neg hc, ih hcs]

theorem splitDot_no_dot (k : String) (h : '.' ∉ k.data) : splitDot k = [k] := by
  simp [splitDot, splitDotChars_no_dot _ h]

theorem jsKeyOrder_single (e : String × String) : jsKeyOrder [e] = [e] := by
  unfold jsKeyOrder
  cases h : isCanonicalIndex e.1 <;> simp [h, insSorted]

theorem replacerTail_stack (vt : JsType) (v : Value) (mk : String) (s : SState) :
    (replacerTail vt v mk s).2.stack = s.stack := by
  unfold replacerTail
  repeat' split
  all_goals rfl

theorem resolveFrame_length (st : SState) (entry : Option Frame)
    (stack : List Frame) (keys : List String)
    (h : resolveFrame st = .ok (entry, stack, keys)) :
    st.stack.length ≤ stack.length + 1 := by
  unfold resolveFrame at h
  rcases hs : st.stack with _ | ⟨e, rest⟩ <;> rw [hs] at h
  · simp [hs]
  · simp only [] at h
    split at h
    · rcases rest with _ | ⟨e2, rest2⟩
      · simp at h
      · simp at h
        obtain ⟨h1, h2, h3⟩ := h
        simp [hs, ← h2]
    · simp at h
      obtain ⟨h1, h2, h3⟩ := h
      simp [hs, ← h2]

theorem serialize_varr_shape (l : List Value) (jv : JVal) (m : List (String × String))
    (h : serialize (.varr l) = .ok (some jv, m)) : ∃ el, jv = JVal.arr el := by
  replace h : withMeta (sjp (sizeVal (Value.varr l) * sizeVal (Value.varr l) + 8) ("")
      (Value.varr l) rootState) = .ok (some jv, m) := h
  rw [sjp_step] at h
  replace h : withMeta (dispatchOut
      (sjp (sizeVal (Value.varr l) * sizeVal (Value.varr l) + 7))
      (if l.length ≠ 0 then
        Except.ok (Value.varr l, pushState EType.eundefined (Value.varr l) l.length [])
      else
        Except.ok (replacerTail JsType.tyObject (Value.varr l) ("") rootState)))
      = .ok (some jv, m) := h
  split at h
  · replace h : withMeta (arrOut (serElems
        (sjp (sizeVal (Value.varr l) * sizeVal (Value.varr l) + 7)) 0 l
        (pushState EType.eundefined (Value.varr l) l.length []))) = .ok (some jv, m) := h
    rcases hse : serElems (sjp (sizeVal (Value.varr l) * sizeVal (Value.varr l) + 7)) 0 l
        (pushState EType.eundefined (Value.varr l) l.length []) with e | ⟨elems, st2⟩ <;>
      rw [hse] at h
    · simp [withMeta, arrOut] at h
    · simp [withMeta, arrOut] at h
      exact ⟨elems, h.1.symm⟩
  · replace h : withMeta (arrOut (serElems
        (sjp (sizeVal (Value.varr l) * sizeVal (Value.varr l) + 7)) 0 l rootState))
        = .ok (some jv, m) := h
    rcases hse : serElems (sjp (sizeVal (Value.varr l) * sizeVal (Value.varr l) + 7)) 0 l
        rootState with e | ⟨elems, st2⟩ <;> rw [hse] at h
    · simp [withMeta, arrOut] at h
    · simp [withMeta, arrOut] at h
      exact ⟨elems, h.1.symm⟩

theorem serialize_vset_shape (l : List Value) (jv : JVal) (m : List (String × String))
    (h : serialize (.vset l) = .ok (some jv, m)) : ∃ el, jv = JVal.arr el := by
  replace h : withMeta (sjp (sizeVal (Value.vset l) * sizeVal (Value.vset l) + 8) ("")
      (Value.vset l) rootState) = .ok (some jv, m) := h
  rw [sjp_step] at h
  replace h : withMeta (dispatchOut
      (sjp (sizeVal (Value.vset l) * sizeVal (Value.vset l) + 7))
      (if l.length ≠ 0 then
        Except.ok (Value.varr l,
          pushState EType.eset (Value.varr l) l.length [("", "set")])
      else
        Except.ok (replacerTail JsType.tyObject (Value.varr l) ("")
          (metaState [("", "set")])))) = .ok (some jv, m) := h
  split at h
  · replace h : withMeta (arrOut (serElems
        (sjp (sizeVal (Value.vset l) * sizeVal (Value.vset l) + 7)) 0 l
        (pushState EType.eset (Value.varr l) l.length [("", "set")])))
        = .ok (some jv, m) := h
    rcases hse : serElems (sjp (sizeVal (Value.vset l) * sizeVal (Value.vset l) + 7)) 0 l
        (pushState EType.eset (Value.varr l) l.length [("", "set")]) with e | ⟨elems, st2⟩ <;>
      rw [hse] at h
    · simp [withMeta, arrOut] at h
    · simp [withMeta, arrOut] at h
      exact ⟨elems, h.1.symm⟩
  · replace h : withMeta (arrOut (serElems
        (sjp (sizeVal (Value.vset l) * sizeVal (Value.vset l) + 7)) 0 l
        (metaState [("", "set")]))) = .ok (some jv, m) := h
    rcases hse : serElems (sjp (sizeVal (Value.vset l) * sizeVal (Value.vset l) + 7)) 0 l
        (metaState [("", "set")]) with e | ⟨elems, st2⟩ <;> rw [hse] at h
    · simp [withMeta, arrOut] at h
    · simp [withMeta, arrOut] at h
      exact ⟨elems, h.1.symm⟩

theorem serialize_vobj_shape (fs : List (String × Value)) (jv : JVal)
    (m : List (String × String))
    (h : serialize (.vobj fs) = .ok (some jv, m)) : ∃ mems, jv = JVal.obj mems := by
  replace h : withMeta (sjp (sizeVal (Value.vobj fs) * sizeVal (Value.vobj fs) + 8) ("")
      (Value.vobj fs) rootState) = .ok (some jv, m) := h
  rw [sjp_step] at h
  replace h : withMeta (dispatchOut
      (sjp (sizeVal (Value.vobj fs) * sizeVal (Value.vobj fs) + 7))
      (if fs.length ≠ 0 then
        Except.ok (Value.vobj fs, pushState EType.obj (Value.vobj fs) fs.length [])
      else
        Except.ok (replacerTail JsType.tyObject (Value.vobj fs) ("") rootState)))
      = .ok (some jv, m) := h
  split at h
  · replace h : withMeta (objOut (serFields
        (sjp (sizeVal (Value.vobj fs) * sizeVal (Value.vobj fs) + 7)) fs
        (pushState EType.obj (Value.vobj fs) fs.length []))) = .ok (some jv, m) := h
    rcases hse : serFields (sjp (sizeVal (Value.vobj fs) * sizeVal (Value.vobj fs) + 7)) fs
        (pushState EType.obj (Value.vobj fs) fs.length []) with e | ⟨mems, st2⟩ <;>
      rw [hse] at h
    · simp [withMeta, objOut] at h
    · simp [withMeta, objOut] at h
      exact ⟨mems, h.1.symm⟩
  · replace h : withMeta (objOut (serFields
        (sjp (sizeVal (Value.vobj fs) * sizeVal (Value.vobj fs) + 7)) fs rootState))
        = .ok (some jv, m) := h
    rcases hse : serFields (sjp (sizeVal (Value.vobj fs) * sizeVal (Value.vobj fs) + 7)) fs
        rootState with e | ⟨mems, st2⟩ <;> rw [hse] at h
    · simp [withMeta, objOut] at h
    · simp [withMeta, objOut] at h
      exact ⟨mems, h.1.symm⟩

theorem serialize_vmap_shape (es : List (String × Value)) (jv : JVal)
    (m : List (String × String))
    (h : serialize (.vmap es) = .ok (some jv, m)) : ∃ mems, jv = JVal.obj mems := by
  replace h : withMeta (sjp (sizeVal (Value.vmap es) * sizeVal (Value.vmap es) + 8) ("")
      (Value.vmap es) rootState) = .ok (some jv, m) := h
  rw [sjp_step] at h
  replace h : withMeta (dispatchOut
      (sjp (sizeVal (Value.vmap es) * sizeVal (Value.vmap es) + 7))
      (if (fromEntries es).length ≠ 0 then
        Except.ok (Value.vobj (fromEntries es),
          pushState EType.emap (Value.vobj (fromEntries es)) (fromEntries es).length
            [("", "map")])
      else
        Except.ok (replacerTail JsType.tyObject (Value.vobj (fromEntries es)) ("")
          (metaState [("", "map")])))) = .ok (some jv, m) := h
  split at h
  · replace h : withMeta (objOut (serFields
        (sjp (sizeVal (Value.vmap es) * sizeVal (Value.vmap es) + 7)) (fromEntries es)
        (pushState EType.emap (Value.vobj (fromEntries es)) (fromEntries es).length
          [("", "map")]))) = .ok (some jv, m) := h
    rcases hse : serFields (sjp (sizeVal (Value.vmap es) * sizeVal (Value.vmap es) + 7))
        (fromEntries es)
        (pushState EType.emap (Value.vobj (fromEntries es)) (fromEntries es).length
          [("", "map")]) with e | ⟨mems, st2⟩ <;> rw [hse] at h
    · simp [withMeta, objOut] at h
    · simp [withMeta, objOut] at h
      exact ⟨mems, h.1.symm⟩
  · replace h : withMeta (objOut (serFields
        (sjp (sizeVal (Value.vmap es) * sizeVal (Value.vmap es) + 7)) (fromEntries es)
        (metaState [("", "map")]))) = .ok (some jv, m) := h
    rcases hse : serFields (sjp (sizeVal (Value.vmap es) * sizeVal (Value.vmap es) + 7))
        (fromEntries es) (metaState [("", "map")]) with e | ⟨mems, st2⟩ <;> rw [hse] at h
    · simp [withMeta, objOut] at h
    · simp [withMeta, objOut] at h
      exact ⟨mems, h.1.symm⟩

theorem scalar_payload_framing (v : Value) (t : String) (m : List (String × String))
    (hser : serialize v = .ok (some (.str t), m)) (hmeta : m ≠ [])
    (hnv : v ≠ .vstr t) :
    stringify v = .ok (some (printJVal (.str t))) ∧
    ∃ t2, JVal.str t = JVal.str t2 ∧
      parse (printJVal (.str t)) = .ok (.vstr t2) ∧ v ≠ .vstr t2 := by
  refine ⟨?_, t, rfl, parse_printStr t, hnv⟩
  have hst : serializeText v = .ok (some (printStr t), m) := by
    unfold serializeText
    rw [hser]
    rfl
  unfold stringify
  rw [hst]
  show Except.ok (some (frameText (printStr t) m)) = _
  have hne : ¬(headChar (printStr t) = some lbrace) := by
    rw [show headChar (printStr t) = some '"' from rfl]
    decide
  have hne2 : ¬(headChar (printStr t) = some '[') := by
    rw [show headChar (printStr t) = some '"' from rfl]
    decide
  unfold frameText
  rw [if_pos ⟨printStr_ne_empty t, hmeta⟩, if_neg hne, if_neg hne2]
  rfl

/-! ### The claims -/

/-- Claim C1 (round-trip of `deserialize` after `serialize`, for values
built from the supported kinds nested arbitrarily through mappings): the
code FAILS it. At the plain input `{a: {b: {c: 1}}, d: 2}` the single
pop of the frame stack at the visit of `d` leaves a stale frame on top,
so `d` re-resolves to undefined: the encoder emits `"d": null` with a
spurious tag at the nonexistent path `a.d`, and decoding returns
`{a: {b: {c: 1}, d: undefined}, d: null}`, not the input. -/
theorem claim_C1 :
    serializeText (.vobj [("a", .vobj [("b", .vobj [("c", .vnum (.finite 1))])]),
        ("d", .vnum (.finite 2))])
      = .ok (some ("\x7b\"a\":\x7b\"b\":\x7b\"c\":1\x7d\x7d,\"d\":null\x7d"),
        [("a.d", "undefined")]) ∧
    deserialize (some ("\x7b\"a\":\x7b\"b\":\x7b\"c\":1\x7d\x7d,\"d\":null\x7d"))
        [("a.d", "undefined")]
      = .ok (.vobj [("a", .vobj [("b", .vobj [("c", .vnum (.finite 1))]),
          ("d", .vundefined)]), ("d", .vnull)]) ∧
    (Value.vobj [("a", .vobj [("b", .vobj [("c", .vnum (.finite 1))]),
        ("d", .vundefined)]), ("d", .vnull)]
      ≠ .vobj [("a", .vobj [("b", .vobj [("c", .vnum (.finite 1))])]),
        ("d", .vnum (.finite 2))]) :=
  ⟨rfl, rfl, by simp⟩

/-- Claim C2, amended: the resolution step pops at most one frame per
visit call, so across the whole call the frame stack shrinks by at most
one; but (see the counterexample) more than one frame can become
exhausted between consecutive calls, and then the top frame after the
single pop is a stale frame that does not own the visited key. -/
theorem claim_C2 (key : String) (value : Value) (st : SState)
    (out : Value × SState) (h : replacer key value st = .ok out) :
    st.stack.length ≤ out.2.stack.length + 1 := by
  unfold replacer at h
  rcases hr : resolveFrame st with e | ⟨entry, stack, keys⟩ <;> rw [hr] at h
  · simp at h
  · have hlen := resolveFrame_length st entry stack keys hr
    simp only [] at h
    revert h
    generalize (match entry with | some fr => jsGet fr.value key | none => value) = v1
    intro h
    cases v1
    all_goals simp only [] at h
    all_goals try split at h
    all_goals try split at h
    all_goals simp only [Except.ok.injEq] at h
    all_goals subst h
    all_goals simp only [replacerTail_stack]
    all_goals simp_all
    all_goals omega

/-- Witness for claim C2 at a concrete call. -/
theorem claim_C2_witness :
    (rootState : SState).stack.length ≤
      ((Value.vnum (.finite 1), rootState) : Value × SState).2.stack.length + 1 :=
  claim_C2 ("x") (.vnum (.finite 1)) rootState (.vnum (.finite 1), rootState) rfl

/-- Counterexample to claim C2 as stated: during the encode of
`{a: {b: {c: 1}}, d: 2}`, at the visit of key `d` (original value 2) the
inner frames for `{c: 1}` AND `{b: ...}` are both exhausted; the single
pop leaves the stale `{b: {c: 1}}` frame on top, whose `iteration` (2)
already exceeds its `count` (1), the value re-resolves to undefined
(`{b: {c: 1}}` has no `d`, while the actual owner — the root — holds 2),
and the call returns null recording the spurious tag `a.d: undefined`.
The last conjunct shows the full encode of that input indeed carries the
spurious tag. -/
theorem claim_C2_counterexample :
    replacer ("d") (.vnum (.finite 2))
        ⟨[⟨EType.obj, .vobj [("c", .vnum (.finite 1))], 1, 1⟩,
          ⟨EType.obj, .vobj [("b", .vobj [("c", .vnum (.finite 1))])], 1, 1⟩,
          ⟨EType.obj, .vobj [("a", .vobj [("b", .vobj [("c", .vnum (.finite 1))])]),
            ("d", .vnum (.finite 2))], 2, 1⟩],
        ["a.b.", "a.", ""], []⟩
      = .ok (.vnull,
        ⟨[⟨EType.obj, .vobj [("b", .vobj [("c", .vnum (.finite 1))])], 1, 2⟩,
          ⟨EType.obj, .vobj [("a", .vobj [("b", .vobj [("c", .vnum (.finite 1))])]),
            ("d", .vnum (.finite 2))], 2, 1⟩],
        ["a.", ""], [("a.d", "undefined")]⟩) ∧
    jsGet (.vobj [("b", .vobj [("c", .vnum (.finite 1))])]) ("d") = .vundefined ∧
    jsGet (.vobj [("a", .vobj [("b", .vobj [("c", .vnum (.finite 1))])]),
        ("d", .vnum (.finite 2))]) ("d") = .vnum (.finite 2) ∧
    (serialize (.vobj [("a", .vobj [("b", .vobj [("c", .vnum (.finite 1))])]),
        ("d", .vnum (.finite 2))])).map (fun r => r.2)
      = .ok [("a.d", "undefined")] :=
  ⟨rfl, rfl, rfl, rfl⟩

/-- Claim C3 (splice `__meta__` immediately before the closing brace,
yielding parseable text): the code FAILS it. `stringify` drops the last
TWO characters (`json.length - 2`), losing the closing quote of the last
member, so for `{when: <date>}` the output is unparseable and differs
from the claimed splice form (which does parse to the original mapping
plus the `__meta__` entry). -/
theorem claim_C3 :
    stringify (.vobj [("when", .vdate ("2024-01-01T00:00:00.000Z"))])
      = .ok (some
        ("\x7b\"when\":\"2024-01-01T00:00:00.000Z,\"__meta__\":\x7b\"when\":\"date\"\x7d\x7d")) ∧
    jsonParse
        ("\x7b\"when\":\"2024-01-01T00:00:00.000Z,\"__meta__\":\x7b\"when\":\"date\"\x7d\x7d")
      = none ∧
    ("\x7b\"when\":\"2024-01-01T00:00:00.000Z,\"__meta__\":\x7b\"when\":\"date\"\x7d\x7d"
      ≠ "\x7b\"when\":\"2024-01-01T00:00:00.000Z\",\"__meta__\":\x7b\"when\":\"date\"\x7d\x7d") ∧
    jsonParse
        ("\x7b\"when\":\"2024-01-01T00:00:00.000Z\",\"__meta__\":\x7b\"when\":\"date\"\x7d\x7d")
      = some (.obj [("when", .str ("2024-01-01T00:00:00.000Z")),
        ("__meta__", .obj [("when", .str ("date"))])]) :=
  ⟨rfl, rfl, by decide, rfl⟩

/-- Claim C4 (payload-framing round-trip for tagged mappings and
sequences): the code FAILS it on both variants. For the sequence
`[1, 2, NaN]` the wrapper emits a stray quote after `__json__`, and for
the mapping `{id: <bigint>}` the splice drops two characters; both
payloads are malformed, so `parse` throws a SyntaxError instead of
returning the value. -/
theorem claim_C4 :
    stringify (.varr [.vnum (.finite 1), .vnum (.finite 2), .vnum .nan])
      = .ok (some ("\x7b\"__json__\"\":[1,2,\"NaN\"],\"__meta__\":\x7b\"2\":\"nan\"\x7d\x7d")) ∧
    parse ("\x7b\"__json__\"\":[1,2,\"NaN\"],\"__meta__\":\x7b\"2\":\"nan\"\x7d\x7d")
      = .error .syntaxError ∧
    stringify (.vobj [("id", .vbigint 9007199254740993)])
      = .ok (some
        ("\x7b\"id\":\"9007199254740993,\"__meta__\":\x7b\"id\":\"bigint\"\x7d\x7d")) ∧
    parse ("\x7b\"id\":\"9007199254740993,\"__meta__\":\x7b\"id\":\"bigint\"\x7d\x7d")
      = .error .syntaxError :=
  ⟨rfl, rfl, rfl, rfl⟩

/-- Claim C5, amended: for an empty Set or Map held at a dot-free mapping
key, `serialize` DOES record the collection's tag (the tag is written
before the empty-count check skips only the frame push), and decoding
restores an empty collection of the ORIGINAL kind, not a plain empty
container. (Decoding is stated on the parsed tree, the text layer being
the assumed-correct grammar primitive.) -/
theorem claim_C5 (k : String) (h : '.' ∉ k.data) :
    serialize (.vobj [(k, .vset [])])
      = .ok (some (.obj [(k, .arr [])]), [(k, "set")]) ∧
    deserializeTree (.obj [(k, .arr [])]) [(k, "set")]
      = .ok (.vobj [(k, .vset [])]) ∧
    serialize (.vobj [(k, .vmap [])])
      = .ok (some (.obj [(k, .obj [])]), [(k, "map")]) ∧
    deserializeTree (.obj [(k, .obj [])]) [(k, "map")]
      = .ok (.vobj [(k, .vmap [])]) := by
  refine ⟨?_, ?_, ?_, ?_⟩
  · have e1 : sjp 33 = serStep (sjp 32) := rfl
    have e2 : sjp 32 = serStep (sjp 31) := rfl
    have hsz : sizeVal (.vobj [(k, .vset [])]) = 5 := rfl
    rw [serialize.eq_def]
    simp only [hsz]
    norm_num
    rw [e1]
    simp [serStep, serFields, serElems, replacer, resolveFrame, replacerTail,
      dispatchOut, arrOut, objOut, withMeta, toJSONify, jsGet, metaSet,
      fromEntries, typeOf, tvalTag, tvalEType, e2]
  · unfold deserializeTree
    rw [jsKeyOrder_single]
    simp [splitDot_no_dot _ h, applyConversion, jsGetThrow, jsNewSet, setDedupAux,
      jsSetThrow, vobjInsert, jvalToValue, jvalToValueFields]
  · have e1 : sjp 33 = serStep (sjp 32) := rfl
    have e2 : sjp 32 = serStep (sjp 31) := rfl
    have hsz : sizeVal (.vobj [(k, .vmap [])]) = 5 := rfl
    rw [serialize.eq_def]
    simp only [hsz]
    norm_num
    rw [e1]
    simp [serStep, serFields, serElems, replacer, resolveFrame, replacerTail,
      dispatchOut, arrOut, objOut, withMeta, toJSONify, jsGet, metaSet,
      fromEntries, typeOf, tvalTag, tvalEType, e2]
  · unfold deserializeTree
    rw [jsKeyOrder_single]
    simp [splitDot_no_dot _ h, applyConversion, jsGetThrow, jsObjectEntries,
      jsNewMap, jsSetThrow, vobjInsert, jvalToValue, jvalToValueFields]

/-- Witness for claim C5 at the key `"s"`. -/
theorem claim_C5_witness :
    serialize (.vobj [("s", .vset [])])
      = .ok (some (.obj [("s", .arr [])]), [("s", "set")]) ∧
    deserializeTree (.obj [("s", .arr [])]) [("s", "set")]
      = .ok (.vobj [("s", .vset [])]) ∧
    serialize (.vobj [("s", .vmap [])])
      = .ok (some (.obj [("s", .obj [])]), [("s", "map")]) ∧
    deserializeTree (.obj [("s", .obj [])]) [("s", "map")]
      = .ok (.vobj [("s", .vmap [])]) :=
  claim_C5 ("s") (by decide)

/-- Counterexample to claim C5 as stated: for `{s: new Set()}` the
encoder DOES record a tag (`s: set`, a non-empty tag map), and the full
decode of the produced text restores an empty Set — the original kind —
rather than a plain empty sequence (and an empty Set is not an empty
array). -/
theorem claim_C5_counterexample :
    serializeText (.vobj [("s", .vset [])])
      = .ok (some ("\x7b\"s\":[]\x7d"), [("s", "set")]) ∧
    ([("s", "set")] : List (String × String)) ≠ [] ∧
    deserialize (some ("\x7b\"s\":[]\x7d")) [("s", "set")]
      = .ok (.vobj [("s", .vset [])]) ∧
    (Value.vset [] ≠ .varr []) :=
  ⟨rfl, by simp, rfl, by simp⟩

/-- Claim C6 (on extended-kind-free input, `serialize` returns an empty
tag map and the direct print of the value): the code FAILS it. The plain
input `{p: {q: {r: true}}, w: "s"}` triggers the stale-frame bug: the
tag map comes back non-empty (`p.w: undefined`) and the emitted text has
`"w": null` where the direct grammar print (`plainJson`) has
`"w": "s"`. -/
theorem claim_C6 :
    serializeText (.vobj [("p", .vobj [("q", .vobj [("r", .vbool true)])]),
        ("w", .vstr ("s"))])
      = .ok (some ("\x7b\"p\":\x7b\"q\":\x7b\"r\":true\x7d\x7d,\"w\":null\x7d"),
        [("p.w", "undefined")]) ∧
    ([("p.w", "undefined")] : List (String × String)) ≠ [] ∧
    plainJson (.vobj [("p", .vobj [("q", .vobj [("r", .vbool true)])]),
        ("w", .vstr ("s"))])
      = some (.obj [("p", .obj [("q", .obj [("r", .bool true)])]),
        ("w", .str ("s"))]) ∧
    printJVal (.obj [("p", .obj [("q", .obj [("r", .bool true)])]),
        ("w", .str ("s"))])
      = "\x7b\"p\":\x7b\"q\":\x7b\"r\":true\x7d\x7d,\"w\":\"s\"\x7d" ∧
    ("\x7b\"p\":\x7b\"q\":\x7b\"r\":true\x7d\x7d,\"w\":null\x7d"
      ≠ "\x7b\"p\":\x7b\"q\":\x7b\"r\":true\x7d\x7d,\"w\":\"s\"\x7d") :=
  ⟨rfl, by simp, rfl, rfl, by decide⟩

/-- Claim C7, amended: `deserialize` with an absent or empty text returns
NULL (the line `if (!json) return null`), for every tag map. -/
theorem claim_C7 (meta : List (String × String)) :
    deserialize none meta = .ok .vnull ∧
    deserialize (some ("")) meta = .ok .vnull :=
  ⟨rfl, rfl⟩

/-- Counterexample to claim C7 as stated: the result is null, not the
absent marker (undefined). -/
theorem claim_C7_counterexample :
    deserialize (some ("")) [("x", "date")] = .ok .vnull ∧
    deserialize none [("x", "date")] = .ok .vnull ∧
    (Value.vnull ≠ .vundefined) :=
  ⟨rfl, rfl, by simp⟩

/-- Claim C8, amended: restoring tag `regexp` against stored text that
does not match `/^\/(.*)\/([dgimsuy]*)$/` raises the `Invalid regexp`
error — but the "only if" direction of the claim is false: other tags
raise too on inputs no encode produced (see the counterexample). Stated
on the parsed tree for a single-entry tag map at key `x`. -/
theorem claim_C8 (s : String) (h : regexpMatchLower s = none) :
    deserializeTree (.obj [("x", .str s)]) [("x", "regexp")]
      = .error (.invalidRegexp s) := by
  have ha : applyConversion (jvalToValue (.obj [("x", JVal.str s)]))
      (splitDot ("x")) ("regexp") = .error (.invalidRegexp s) := by
    show (match regexpMatchLower s with
      | some bf => Except.ok (Value.vobj [("x", Value.vregexp bf.1 bf.2)])
      | none => Except.error (DErr.invalidRegexp s)) = _
    rw [h]
  unfold deserializeTree
  rw [jsKeyOrder_single]
  simp [List.foldlM, ha]

/-- Witness for claim C8 at the spec's own example text. -/
theorem claim_C8_witness :
    deserializeTree (.obj [("x", .str ("not-a-pattern"))]) [("x", "regexp")]
      = .error (.invalidRegexp ("not-a-pattern")) :=
  claim_C8 ("not-a-pattern") rfl

/-- Counterexample to claim C8 as stated: decoding raises even when no
entry of the tag map carries the pattern tag — the bigint tag against the
non-numeric stored text `"abc"` raises a SyntaxError. -/
theorem claim_C8_counterexample :
    deserialize (some ("\x7b\"x\":\"abc\"\x7d")) [("x", "bigint")]
      = .error .syntaxError ∧
    ∀ e ∈ ([("x", "bigint")] : List (String × String)), e.2 ≠ "regexp" :=
  ⟨rfl, by decide⟩

/-- Claim C9: when `serialize` produces text that starts with neither a
brace nor a bracket and a non-empty tag map, `stringify` returns the
text unchanged (discarding the tag map), and `parse` of that payload
returns the lowered stand-in — a string — rather than the original
value. -/
theorem claim_C9 (v : Value) (jv : JVal) (m : List (String × String))
    (hser : serialize v = .ok (some jv, m))
    (hbrace : headChar (printJVal jv) ≠ some lbrace)
    (hbracket : headChar (printJVal jv) ≠ some '[')
    (hmeta : m ≠ []) :
    stringify v = .ok (some (printJVal jv)) ∧
    ∃ t, jv = JVal.str t ∧ parse (printJVal jv) = .ok (.vstr t) ∧ v ≠ .vstr t := by
  cases v with
  | vnull =>
    replace hser : (Except.ok (some JVal.null, ([] : List (String × String))) :
        Except Unit (Option JVal × List (String × String))) = .ok (some jv, m) := hser
    simp at hser
    exact absurd hser.2 hmeta
  | vundefined =>
    replace hser : (Except.ok (none, ([] : List (String × String))) :
        Except Unit (Option JVal × List (String × String))) = .ok (some jv, m) := hser
    simp at hser
  | vbool b =>
    replace hser : (Except.ok (some (JVal.bool b), ([] : List (String × String))) :
        Except Unit (Option JVal × List (String × String))) = .ok (some jv, m) := hser
    simp at hser
    exact absurd hser.2 hmeta
  | vnum n =>
    cases n with
    | finite i =>
      replace hser : (Except.ok (some (JVal.num i), ([] : List (String × String))) :
          Except Unit (Option JVal × List (String × String))) = .ok (some jv, m) := hser
      simp at hser
      exact absurd hser.2 hmeta
    | inf =>
      replace hser : (Except.ok (some (JVal.str ("Infinity")), [("", "infinity")]) :
          Except Unit (Option JVal × List (String × String))) = .ok (some jv, m) := hser
      simp at hser
      obtain ⟨h1, h2⟩ := hser
      subst h1; subst h2
      exact scalar_payload_framing _ _ [("", "infinity")] rfl (by simp) (by simp)
    | ninf =>
      replace hser : (Except.ok (some (JVal.str ("-Infinity")), [("", "-infinity")]) :
          Except Unit (Option JVal × List (String × String))) = .ok (some jv, m) := hser
      simp at hser
      obtain ⟨h1, h2⟩ := hser
      subst h1; subst h2
      exact scalar_payload_framing _ _ [("", "-infinity")] rfl (by simp) (by simp)
    | nan =>
      replace hser : (Except.ok (some (JVal.str ("NaN")), [("", "nan")]) :
          Except Unit (Option JVal × List (String × String))) = .ok (some jv, m) := hser
      simp at hser
      obtain ⟨h1, h2⟩ := hser
      subst h1; subst h2
      exact scalar_payload_framing _ _ [("", "nan")] rfl (by simp) (by simp)
  | vstr s =>
    replace hser : (Except.ok (some (JVal.str s), ([] : List (String × String))) :
        Except Unit (Option JVal × List (String × String))) = .ok (some jv, m) := hser
    simp at hser
    exact absurd hser.2 hmeta
  | vdate iso =>
    replace hser : (Except.ok (some (JVal.str iso), ([] : List (String × String))) :
        Except Unit (Option JVal × List (String × String))) = .ok (some jv, m) := hser
    simp at hser
    exact absurd hser.2 hmeta
  | vbigint i =>
    replace hser : (Except.ok (some (JVal.str (toString i)), [("", "bigint")]) :
        Except Unit (Option JVal × List (String × String))) = .ok (some jv, m) := hser
    simp at hser
    obtain ⟨h1, h2⟩ := hser
    subst h1; subst h2
    exact scalar_payload_framing _ _ [("", "bigint")] rfl (by simp) (by simp)
  | vregexp src fl =>
    replace hser : (Except.ok (some (JVal.str ("/" ++ (src ++ ("/" ++ fl)))),
        [("", "regexp")]) :
        Except Unit (Option JVal × List (String × String))) = .ok (some jv, m) := hser
    simp at hser
    obtain ⟨h1, h2⟩ := hser
    subst h1; subst h2
    exact scalar_payload_framing _ _ [("", "regexp")] rfl (by simp) (by simp)
  | verror nm ms stk =>
    replace hser : (Except.ok (some (JVal.obj
        [("name", JVal.str nm), ("message", JVal.str ms), ("stack", JVal.str stk)]),
        [("", "error")]) :
        Except Unit (Option JVal × List (String × String))) = .ok (some jv, m) := hser
    simp at hser
    obtain ⟨h1, h2⟩ := hser
    subst h1
    exact absurd rfl hbrace
  | varr l =>
    obtain ⟨el, rfl⟩ := serialize_varr_shape l jv m hser
    exact absurd rfl hbracket
  | vset l =>
    obtain ⟨el, rfl⟩ := serialize_vset_shape l jv m hser
    exact absurd rfl hbracket
  | vobj fs =>
    obtain ⟨mems, rfl⟩ := serialize_vobj_shape fs jv m hser
    exact absurd rfl hbrace
  | vmap es =>
    obtain ⟨mems, rfl⟩ := serialize_vmap_shape es jv m hser
    exact absurd rfl hbrace

/-- Witness for claim C9 at a root bigint. -/
theorem claim_C9_witness :
    stringify (.vbigint 123) = .ok (some (printJVal (JVal.str ("123")))) ∧
    ∃ t, JVal.str ("123") = JVal.str t ∧
      parse (printJVal (JVal.str ("123"))) = .ok (.vstr t) ∧
      Value.vbigint 123 ≠ .vstr t :=
  claim_C9 (.vbigint 123) (JVal.str ("123")) [("", "bigint")] rfl
    (by decide) (by decide) (by simp)

/-- Claim C10: `stringify(null)` returns the text `null`, and `parse` of
any payload text whose parsed value is null throws — the property read
`data.__json__` on the null result raises a TypeError before the
fallback branch — so `parse (stringify null)` never returns null. -/
theorem claim_C10 :
    stringify .vnull = .ok (some ("null")) ∧
    ∀ s, jsonParse s = some JVal.null → parse s = .error .typeError := by
  refine ⟨rfl, fun s h => ?_⟩
  unfold parse
  rw [h]

/-- Witness for claim C10 at the payload `stringify(null)` itself. -/
theorem claim_C10_witness : parse ("null") = .error DErr.typeError :=
  claim_C10.2 ("null") rfl

end TypedJson
